import Mathlib

/-!
# Verification of the ghost multi-window coordination core

Shallow embedding of the timing / animation / snap logic of the `ghost`
repository, together with proofs of the specification's testable properties.

Modelling conventions:
* Rust `f32`/`f64` time and coordinate arithmetic is embedded as exact
  rational arithmetic (`ℚ`); `usize`/`u32`/`i32` as `ℕ`/`ℤ`.
* A Rust float-to-unsigned cast (`as u32` / `as usize`) rounds toward zero
  and saturates below at 0; it is embedded as `Nat.floor` (negative inputs
  map to 0).  Saturation at the integer type's maximum is not modelled: no
  value in any claim comes near it.
* GPU objects, file handles and log output carry no state relevant to any
  claim and are elided; the fields of each Rust struct that drive the
  verified logic are kept with their source names.
-/

set_option maxRecDepth 10000

namespace Ghost

/-! ## `ghost-ui/src/skin.rs` — `SkinData` (decoded image metadata)

Only the dimensions and (for GPU skins) the alpha channel matter to the
verified logic; the raw byte payload is elided. -/

structure SkinData where
  width : ℕ
  height : ℕ
deriving DecidableEq, Repr

/-- Model of `ghost-ui/src/skin.rs` — `SkinError` (error payload strings elided). -/
inductive SkinError where
  | ImageLoadError
  | IoError
  | NotFound
deriving DecidableEq, Repr

/-! ## `ghost-ui/src/animated_skin.rs` — `Animation` -/

/-- Model of `PlayMode` from `animated_skin.rs`. -/
inductive PlayMode where
  | Loop
  | Once
  | OnceAndHide
  | PingPong
deriving DecidableEq, Repr

/-- Model of `Animation` from `animated_skin.rs`.  The `textures` vector (GPU
resources, one per frame, filled by `init_gpu`) is elided; `current_skin`
below returns the frame index that would be rendered instead of the GPU
handle. -/
structure Animation where
  frames : List SkinData
  fps : ℚ
  play_mode : PlayMode
  current_frame : ℕ
  time_accumulator : ℚ
  direction : ℤ
  finished : Bool
deriving DecidableEq, Repr

namespace Animation

/-- Model of `Animation::from_frames`: constructing from pre-loaded frame data;
rejects an empty frame list. -/
def from_frames (frames : List SkinData) (fps : ℚ) : Except SkinError Animation :=
  if frames.isEmpty then
    .error SkinError.NotFound
  else
    .ok { frames := frames
          fps := fps
          play_mode := PlayMode.Loop
          current_frame := 0
          time_accumulator := 0
          direction := 1
          finished := false }

/-- The frame-collecting loop of `Animation::from_directory`: starting at
`frame_num = 1`, read `frame_{n:04}.png` while the file exists.  The
directory is abstracted as a partial map `files : ℕ → Option SkinData`
from frame number to decoded frame; `fuel` bounds the scan (a real
directory holds finitely many files). -/
def collectFrames (files : ℕ → Option SkinData) : ℕ → ℕ → List SkinData
  | 0, _ => []
  | fuel + 1, n =>
    match files n with
    | none => []
    | some d => d :: collectFrames files fuel (n + 1)

/-- Model of `Animation::from_directory`: collect `frame_0001.png, frame_0002.png, …`
and reject an empty result. -/
def from_directory (files : ℕ → Option SkinData) (fuel : ℕ) (fps : ℚ) :
    Except SkinError Animation :=
  let frames := collectFrames files fuel 1
  if frames.isEmpty then
    .error SkinError.NotFound
  else
    .ok { frames := frames
          fps := fps
          play_mode := PlayMode.Loop
          current_frame := 0
          time_accumulator := 0
          direction := 1
          finished := false }

/-- Model of `Animation::advance_frame`: one frame step according to the play mode.
`next = self.current_frame as i32 + self.direction` is computed in `ℤ`;
`next as usize` in the in-range branch is `Int.toNat`. -/
def advance_frame (a : Animation) : Animation :=
  let frame_count := a.frames.length
  if frame_count ≤ 1 then a
  else
    match a.play_mode with
    | PlayMode.Loop =>
        { a with current_frame := (a.current_frame + 1) % frame_count }
    | PlayMode.Once | PlayMode.OnceAndHide =>
        if a.current_frame < frame_count - 1 then
          { a with current_frame := a.current_frame + 1 }
        else
          { a with finished := true }
    | PlayMode.PingPong =>
        let next : ℤ := (a.current_frame : ℤ) + a.direction
        if next < 0 then
          { a with direction := 1, current_frame := 1 }
        else if (frame_count : ℤ) ≤ next then
          { a with direction := -1, current_frame := frame_count - 2 }
        else
          { a with current_frame := next.toNat }

theorem advance_frame_time_accumulator (a : Animation) :
    (advance_frame a).time_accumulator = a.time_accumulator := by
  unfold advance_frame
  dsimp only
  split
  · rfl
  · split <;> first | rfl | (split <;> rfl) | (split <;> [rfl; (split <;> rfl)])

theorem advance_frame_frames (a : Animation) :
    (advance_frame a).frames = a.frames := by
  unfold advance_frame
  dsimp only
  split
  · rfl
  · split <;> first | rfl | (split <;> rfl) | (split <;> [rfl; (split <;> rfl)])

theorem advance_frame_fps (a : Animation) : (advance_frame a).fps = a.fps := by
  unfold advance_frame
  dsimp only
  split
  · rfl
  · split <;> first | rfl | (split <;> rfl) | (split <;> [rfl; (split <;> rfl)])

theorem advance_frame_play_mode (a : Animation) :
    (advance_frame a).play_mode = a.play_mode := by
  unfold advance_frame
  dsimp only
  split
  · rfl
  · split <;> first | rfl | (split <;> rfl) | (split <;> [rfl; (split <;> rfl)])

/-- The `while self.time_accumulator >= frame_duration` loop of
`Animation::update`: subtract `frame_duration` and `advance_frame` until the
accumulator drops below one frame duration.  `d` is the `frame_duration`
computed once before the loop.  The extra `0 < d` conjunct makes the
function total: with `d ≤ 0` the Rust loop would never terminate, and no
caller reaches that case (`fps > 0`). -/
def drain (d : ℚ) (a : Animation) : Animation :=
  if h : 0 < d ∧ d ≤ a.time_accumulator then
    drain d (advance_frame { a with time_accumulator := a.time_accumulator - d })
  else a
termination_by Nat.floor (a.time_accumulator / d)
decreasing_by
  rw [advance_frame_time_accumulator]
  simp only
  have hd : (0 : ℚ) < d := h.1
  have hle : d ≤ a.time_accumulator := h.2
  have h1 : (1 : ℚ) ≤ a.time_accumulator / d := (one_le_div hd).mpr hle
  have hfl : 1 ≤ ⌊a.time_accumulator / d⌋₊ := (Nat.one_le_floor_iff _).mpr h1
  have : (a.time_accumulator - d) / d = a.time_accumulator / d - 1 := by
    rw [sub_div, div_self (ne_of_gt hd)]
  rw [this, Nat.floor_sub_one]
  omega

/-- Model of `Animation::update`: accumulate `delta`, then run the drain loop with
`frame_duration = 1 / fps`. -/
def update (a : Animation) (delta : ℚ) : Animation :=
  if a.finished || a.frames.isEmpty then a
  else
    drain (1 / a.fps) { a with time_accumulator := a.time_accumulator + delta }

/-- Model of `Animation::current_skin`, abstracted to the index of the frame whose
texture would be returned (GPU resources initialised): `none` when a
finished `OnceAndHide` animation hides itself, or when the index has no
texture; otherwise the current frame index. -/
def current_skin (a : Animation) : Option ℕ :=
  if a.finished ∧ a.play_mode = PlayMode.OnceAndHide then
    none
  else if a.current_frame < a.frames.length then
    some a.current_frame
  else
    none

/-- Model of `Animation::reset`. -/
def reset (a : Animation) : Animation :=
  { a with current_frame := 0, time_accumulator := 0, direction := 1, finished := false }

/-- Model of `Animation::is_finished`. -/
def is_finished (a : Animation) : Bool := a.finished

/-- Model of `Animation::frame_count`. -/
def frame_count (a : Animation) : ℕ := a.frames.length

/-- Model of `Animation::current_frame_index`. -/
def current_frame_index (a : Animation) : ℕ := a.current_frame

/-- Model of `Animation::set_play_mode`. -/
def set_play_mode (a : Animation) (mode : PlayMode) : Animation :=
  { a with play_mode := mode }

theorem drain_frames (d : ℚ) (a : Animation) : (drain d a).frames = a.frames := by
  induction a using drain.induct d with
  | case1 a h ih =>
      rw [drain, dif_pos h]
      rw [ih, advance_frame_frames]
  | case2 a h =>
      rw [drain, dif_neg h]

theorem drain_play_mode (d : ℚ) (a : Animation) :
    (drain d a).play_mode = a.play_mode := by
  induction a using drain.induct d with
  | case1 a h ih =>
      rw [drain, dif_pos h]
      rw [ih, advance_frame_play_mode]
  | case2 a h =>
      rw [drain, dif_neg h]

/-- Stepping with `advance_frame` keeps the current index inside the frame list. -/
theorem advance_frame_index_lt (a : Animation)
    (h : a.current_frame < a.frames.length) :
    (advance_frame a).current_frame < (advance_frame a).frames.length := by
  rw [advance_frame_frames]
  unfold advance_frame
  dsimp only
  split
  · exact h
  · rename_i hn
    split
    · simp only
      exact Nat.mod_lt _ (by omega)
    · split <;> simp only <;> omega
    · split <;> simp only <;> omega
    · split
      · simp only
        omega
      · split <;> simp only <;> omega

theorem drain_index_lt (d : ℚ) (a : Animation)
    (h : a.current_frame < a.frames.length) :
    (drain d a).current_frame < (drain d a).frames.length := by
  induction a using drain.induct d with
  | case1 a hc ih =>
      rw [drain, dif_pos hc]
      exact ih (by
        have := advance_frame_index_lt { a with time_accumulator := a.time_accumulator - d } h
        simpa using this)
  | case2 a hc =>
      rw [drain, dif_neg hc]
      exact h

theorem update_index_lt (a : Animation) (delta : ℚ)
    (h : a.current_frame < a.frames.length) :
    (update a delta).current_frame < (update a delta).frames.length := by
  unfold update
  split
  · exact h
  · exact drain_index_lt _ _ h

/-- One iteration of the drain loop: subtract one frame duration and advance. -/
def stepA (d : ℚ) (b : Animation) : Animation :=
  advance_frame { b with time_accumulator := b.time_accumulator - d }

theorem drain_eq_iterate (d : ℚ) (hd : 0 < d) (N : ℕ) :
    ∀ a : Animation, 0 ≤ a.time_accumulator - (N : ℚ) * d →
      a.time_accumulator - (N : ℚ) * d < d →
      drain d a = (stepA d)^[N] a := by
  induction N with
  | zero =>
      intro a h0 h1
      rw [drain, dif_neg]
      · rfl
      · rintro ⟨-, hle⟩
        push_cast at h1
        linarith
  | succ N ih =>
      intro a h0 h1
      have hNd : (0:ℚ) ≤ (N : ℚ) * d := by positivity
      have hle : d ≤ a.time_accumulator := by
        push_cast at h0
        nlinarith
      rw [drain, dif_pos ⟨hd, hle⟩]
      have hacc : (stepA d a).time_accumulator = a.time_accumulator - d := by
        unfold stepA
        rw [advance_frame_time_accumulator]
      have h0' : 0 ≤ (stepA d a).time_accumulator - (N : ℚ) * d := by
        rw [hacc]
        push_cast at h0
        linarith
      have h1' : (stepA d a).time_accumulator - (N : ℚ) * d < d := by
        rw [hacc]
        push_cast at h1
        linarith
      calc drain d (advance_frame { a with time_accumulator := a.time_accumulator - d })
          = drain d (stepA d a) := rfl
        _ = (stepA d)^[N] (stepA d a) := ih (stepA d a) h0' h1'
        _ = (stepA d)^[N + 1] a := (Function.iterate_succ_apply (stepA d) N a).symm

theorem advance_frame_small (s : Animation) (hn : s.frames.length ≤ 1) :
    advance_frame s = s := by
  unfold advance_frame
  dsimp only
  rw [if_pos hn]

theorem advance_frame_loop_current (s : Animation)
    (hm : s.play_mode = PlayMode.Loop) (hn : ¬ s.frames.length ≤ 1) :
    (advance_frame s).current_frame = (s.current_frame + 1) % s.frames.length := by
  unfold advance_frame
  dsimp only
  rw [if_neg hn]
  split <;> simp_all

theorem stepA_loop_iterate (d : ℚ) (a : Animation)
    (hm : a.play_mode = PlayMode.Loop) (hidx : a.current_frame < a.frames.length) :
    ∀ k : ℕ,
      ((stepA d)^[k] a).play_mode = PlayMode.Loop ∧
      ((stepA d)^[k] a).frames = a.frames ∧
      ((stepA d)^[k] a).current_frame = (a.current_frame + k) % a.frames.length := by
  intro k
  induction k with
  | zero =>
      refine ⟨hm, rfl, ?_⟩
      simpa using (Nat.mod_eq_of_lt hidx).symm
  | succ k ih =>
      obtain ⟨ihm, ihf, ihc⟩ := ih
      rw [Function.iterate_succ_apply']
      set s := (stepA d)^[k] a with hs
      have hm' : ({ s with time_accumulator := s.time_accumulator - d } :
          Animation).play_mode = PlayMode.Loop := ihm
      by_cases hn : a.frames.length ≤ 1
      · have hsmall : (stepA d s) = { s with time_accumulator := s.time_accumulator - d } := by
          unfold stepA
          exact advance_frame_small _ (by simpa [ihf] using hn)
        refine ⟨by rw [hsmall]; exact ihm, by rw [hsmall]; exact ihf, ?_⟩
        rw [hsmall]
        have h1 : a.frames.length = 1 := by omega
        simp only [ihc, h1]
        omega
      · have hcur : (stepA d s).current_frame =
            (s.current_frame + 1) % s.frames.length := by
          unfold stepA
          exact advance_frame_loop_current _ hm' (by simpa [ihf] using hn)
        refine ⟨?_, ?_, ?_⟩
        · unfold stepA
          rw [advance_frame_play_mode]
          exact ihm
        · unfold stepA
          rw [advance_frame_frames]
          exact ihf
        · rw [hcur, ihf, ihc, Nat.mod_add_mod, Nat.add_assoc]

/-- C7: in `Loop` mode, a well-formed unfinished animation with `N` frames
and an accumulator in `[0, 1/fps)` returns to its starting frame index after
being advanced by exactly `N * (1/fps)` seconds. -/
theorem c7_loop_cyclic (a : Animation)
    (hmode : a.play_mode = PlayMode.Loop)
    (hfin : a.finished = false)
    (hfps : 0 < a.fps)
    (hidx : a.current_frame < a.frames.length)
    (hacc0 : 0 ≤ a.time_accumulator)
    (hacc1 : a.time_accumulator < 1 / a.fps) :
    (a.update ((a.frames.length : ℚ) * (1 / a.fps))).current_frame_index =
      a.current_frame_index := by
  have hd : (0:ℚ) < 1 / a.fps := by positivity
  have hne : a.frames.isEmpty = false := by
    cases hf : a.frames with
    | nil => rw [hf] at hidx; simp at hidx
    | cons x xs => rfl
  unfold Animation.update
  rw [if_neg (by simp [hfin, hne])]
  set b : Animation :=
    { a with time_accumulator :=
        a.time_accumulator + (a.frames.length : ℚ) * (1 / a.fps) } with hb
  have hbacc : b.time_accumulator - (a.frames.length : ℚ) * (1 / a.fps) =
      a.time_accumulator := by
    simp [hb]
  have hdr : drain (1 / a.fps) b = (stepA (1 / a.fps))^[a.frames.length] b := by
    refine drain_eq_iterate _ hd _ b ?_ ?_ <;> rw [hbacc] <;> assumption
  have hit := stepA_loop_iterate (1 / a.fps) b hmode hidx a.frames.length
  unfold current_frame_index
  rw [hdr, hit.2.2]
  have hbc : b.current_frame = a.current_frame := rfl
  have hbf : b.frames = a.frames := rfl
  rw [hbc, hbf, Nat.add_mod_right, Nat.mod_eq_of_lt hidx]

end Animation

/-- Witness for C7: three frames at 8 fps starting at index 1. -/
theorem c7_loop_cyclic_witness :
    ((Animation.mk [SkinData.mk 1 1, SkinData.mk 2 2, SkinData.mk 3 3] 8
        PlayMode.Loop 1 0 1 false).update
          ((((Animation.mk [SkinData.mk 1 1, SkinData.mk 2 2, SkinData.mk 3 3] 8
            PlayMode.Loop 1 0 1 false).frames.length : ℕ) : ℚ) *
              (1 / (8:ℚ)))).current_frame_index =
      (Animation.mk [SkinData.mk 1 1, SkinData.mk 2 2, SkinData.mk 3 3] 8
        PlayMode.Loop 1 0 1 false).current_frame_index :=
  Animation.c7_loop_cyclic _ rfl rfl (by norm_num) (by simp) le_rfl (by norm_num)

/-- A three-frame `PingPong` animation starting at index 0 with direction +1
(claim C4). -/
def pingpongDemo : Animation :=
  Animation.mk [SkinData.mk 1 1, SkinData.mk 2 2, SkinData.mk 3 3] 24
    PlayMode.PingPong 0 0 1 false

/-- Frame index after `n` successive `advance_frame` steps of `pingpongDemo`. -/
def ppSeq (n : ℕ) : ℕ :=
  (Animation.advance_frame^[n] pingpongDemo).current_frame

theorem ppSeq_periodic (m : ℕ) :
    Animation.advance_frame^[m] (Animation.advance_frame pingpongDemo) =
      Animation.advance_frame^[m % 4] (Animation.advance_frame pingpongDemo) := by
  have hfix : (Animation.advance_frame^[4])
      (Animation.advance_frame pingpongDemo) =
      Animation.advance_frame pingpongDemo := by decide
  conv_lhs => rw [← Nat.div_add_mod m 4]
  rw [Nat.add_comm, Function.iterate_add_apply, Function.iterate_mul,
    Function.iterate_fixed hfix]

theorem ppSeq_pattern (n : ℕ) : ppSeq n = [0, 1, 2, 1].getD (n % 4) 0 := by
  cases n with
  | zero => decide
  | succ m =>
      unfold ppSeq
      rw [Function.iterate_succ_apply, ppSeq_periodic]
      have h4 : m % 4 = 0 ∨ m % 4 = 1 ∨ m % 4 = 2 ∨ m % 4 = 3 := by omega
      rcases h4 with h | h | h | h <;>
        · have hn : (m + 1) % 4 = (m % 4 + 1) % 4 := by omega
          rw [hn, h]
          decide

/-- C4: the three-frame `PingPong` animation starting at index 0 with
direction +1 produces the frame-index sequence `0,1,2,1,0,1,2,…` under
successive steps: the index follows the period-4 pattern `[0,1,2,1]`, no
index (in particular no endpoint) is ever produced twice in a row, and
consecutive indices always differ by exactly 1. -/
theorem c4_pingpong_sequence (n : ℕ) :
    ppSeq n = [0, 1, 2, 1].getD (n % 4) 0 ∧
    ppSeq (n + 1) ≠ ppSeq n ∧
    ((ppSeq (n + 1) : ℤ) - (ppSeq n : ℤ) = 1 ∨
      (ppSeq (n + 1) : ℤ) - (ppSeq n : ℤ) = -1) := by
  refine ⟨ppSeq_pattern n, ?_, ?_⟩ <;>
    · rw [ppSeq_pattern n, ppSeq_pattern (n + 1)]
      have h4 : n % 4 = 0 ∨ n % 4 = 1 ∨ n % 4 = 2 ∨ n % 4 = 3 := by omega
      rcases h4 with h | h | h | h <;>
        · have hn : (n + 1) % 4 = (n % 4 + 1) % 4 := by omega
          rw [hn, h]
          decide

/-- The mutating operations on an `Animation` that the runtime performs
(claim C10): `update` with an arbitrary delta, `reset`, `set_play_mode`. -/
inductive AnimOp where
  | upd (delta : ℚ)
  | rst
  | setMode (mode : PlayMode)

/-- Apply one operation to an animation. -/
def applyOp (a : Animation) : AnimOp → Animation
  | AnimOp.upd delta => a.update delta
  | AnimOp.rst => a.reset
  | AnimOp.setMode m => a.set_play_mode m

theorem applyOp_index_lt (a : Animation) (op : AnimOp)
    (h : a.current_frame < a.frames.length) :
    (applyOp a op).current_frame < (applyOp a op).frames.length := by
  cases op with
  | upd delta => exact Animation.update_index_lt a delta h
  | rst =>
      simp only [applyOp, Animation.reset]
      omega
  | setMode m => exact h

theorem foldl_applyOp_index_lt (ops : List AnimOp) (a : Animation)
    (h : a.current_frame < a.frames.length) :
    (ops.foldl applyOp a).current_frame < (ops.foldl applyOp a).frames.length := by
  induction ops generalizing a with
  | nil => exact h
  | cons op rest ih =>
      exact ih _ (applyOp_index_lt a op h)

/-- C9: every construction of an animation frame sequence — from a
directory scan or from a pre-loaded frame list — rejects an empty frame set
with a typed `SkinError`; an `Animation` produced by either constructor
always has at least one frame. -/
theorem c9_empty_frames_rejected :
    (∀ (frames : List SkinData) (fps : ℚ) (a : Animation),
        Animation.from_frames frames fps = Except.ok a → 0 < a.frame_count) ∧
    (∀ (files : ℕ → Option SkinData) (fuel : ℕ) (fps : ℚ) (a : Animation),
        Animation.from_directory files fuel fps = Except.ok a → 0 < a.frame_count) := by
  constructor
  · intro frames fps a h
    unfold Animation.from_frames at h
    split at h
    · exact absurd h (by simp)
    · rename_i hne
      cases h
      simpa [Animation.frame_count, List.isEmpty_iff_length_eq_zero] using
        Nat.pos_of_ne_zero (by simpa [List.isEmpty_iff_length_eq_zero] using hne)
  · intro files fuel fps a h
    unfold Animation.from_directory at h
    dsimp only at h
    split at h
    · exact absurd h (by simp)
    · rename_i hne
      cases h
      simpa [Animation.frame_count, List.isEmpty_iff_length_eq_zero] using
        Nat.pos_of_ne_zero (by simpa [List.isEmpty_iff_length_eq_zero] using hne)

/-- Witness for C9 at a concrete one-frame input. -/
theorem c9_empty_frames_rejected_witness :
    0 < (Animation.mk [SkinData.mk 1 1] 24 PlayMode.Loop 0 0 1 false).frame_count :=
  c9_empty_frames_rejected.1 [SkinData.mk 1 1] 24 _ rfl

/-- C10: for an animation built by `from_frames`, the index invariant
`current_frame < frame_count` holds after construction and is preserved by
every sequence of runtime operations (`update` with any delta, `reset`,
`set_play_mode`), in every play mode — so indexing the frame and texture
vectors by the current index never goes out of bounds. -/
theorem c10_index_invariant (frames : List SkinData) (fps : ℚ) (a : Animation)
    (h : Animation.from_frames frames fps = Except.ok a) (ops : List AnimOp) :
    (ops.foldl applyOp a).current_frame_index < (ops.foldl applyOp a).frame_count := by
  have h0 : a.current_frame < a.frames.length := by
    unfold Animation.from_frames at h
    split at h
    · exact absurd h (by simp)
    · rename_i hne
      cases h
      simp only [List.isEmpty_iff_length_eq_zero] at hne
      simpa using Nat.pos_of_ne_zero hne
  exact foldl_applyOp_index_lt ops a h0

/-- Witness for C10: one frame, PingPong mode, a long mixed operation
sequence. -/
theorem c10_index_invariant_witness :
    (([AnimOp.setMode PlayMode.PingPong, AnimOp.upd 10, AnimOp.rst,
       AnimOp.upd (1/2), AnimOp.setMode PlayMode.OnceAndHide,
       AnimOp.upd 5].foldl applyOp
        (Animation.mk [SkinData.mk 4 4, SkinData.mk 4 4] 8 PlayMode.Loop 0 0 1
          false)).current_frame_index <
      ([AnimOp.setMode PlayMode.PingPong, AnimOp.upd 10, AnimOp.rst,
        AnimOp.upd (1/2), AnimOp.setMode PlayMode.OnceAndHide,
        AnimOp.upd 5].foldl applyOp
          (Animation.mk [SkinData.mk 4 4, SkinData.mk 4 4] 8 PlayMode.Loop 0 0 1
            false)).frame_count) :=
  c10_index_invariant [SkinData.mk 4 4, SkinData.mk 4 4] 8 _ rfl _

/-- C8: once an animation is marked finished, in `OnceAndHide` mode the
current-frame query returns `none` (nothing is rendered), and every further
`update` call — with any delta — is a no-op leaving the entire animator
state unchanged. -/
theorem c8_once_and_hide_terminal (a : Animation) (delta : ℚ)
    (hfin : a.finished = true) :
    (a.play_mode = PlayMode.OnceAndHide → a.current_skin = none) ∧
      a.update delta = a := by
  constructor
  · intro hm
    unfold Animation.current_skin
    rw [if_pos ⟨hfin, hm⟩]
  · unfold Animation.update
    rw [hfin]
    simp

/-- Witness for C8 at a concrete finished `OnceAndHide` animation. -/
theorem c8_once_and_hide_terminal_witness :
    (Animation.mk [SkinData.mk 1 1, SkinData.mk 1 1] 24 PlayMode.OnceAndHide 1 0 1
        true).current_skin = none ∧
      (Animation.mk [SkinData.mk 1 1, SkinData.mk 1 1] 24 PlayMode.OnceAndHide 1 0 1
          true).update 3 =
        Animation.mk [SkinData.mk 1 1, SkinData.mk 1 1] 24 PlayMode.OnceAndHide 1 0 1
          true :=
  ⟨(c8_once_and_hide_terminal _ 3 rfl).1 rfl, (c8_once_and_hide_terminal _ 3 rfl).2⟩

/-! ## `ghost-ui/src/elements/callout/types.rs` — timing and text animation -/

/-- Model of `TextAnimation` from `callout/types.rs` (rates embedded as `ℚ`). -/
inductive TextAnimation where
  | Instant
  | Typewriter (cps : ℚ)
  | WordByWord (wps : ℚ)
  | Stream (cps : ℚ)
deriving DecidableEq, Repr

/-- Model of `CalloutTiming` from `callout/types.rs`; `std::time::Duration` values are
embedded as non-negative rationals of seconds (`is_zero` becomes `= 0`). -/
structure CalloutTiming where
  duration : Option ℚ
  delay : ℚ
  fade_in : ℚ
  fade_out : ℚ
deriving DecidableEq, Repr

/-! ## `ghost-ui/src/elements/callout/text.rs` — `TextAnimator` -/

/-- Model of `TextAnimator` from `callout/text.rs`; the text is embedded as its
character sequence (`full_text.chars()`). -/
structure TextAnimator where
  full_text : List Char
  visible_chars : ℕ
  animation : TextAnimation
  elapsed : ℚ
  is_complete : Bool
  word_boundaries : List ℕ
deriving DecidableEq, Repr

namespace TextAnimator

/-- The accumulating loop in `TextAnimator::compute_word_boundaries`:
`in_word` and `char_count` are the loop state; a boundary `char_count - 1`
is pushed on each word→whitespace transition and a final boundary
`char_count` if the text ends inside a word. -/
def cwbAux : List Char → Bool → ℕ → List ℕ
  | [], in_word, char_count => if in_word then [char_count] else []
  | c :: rest, in_word, char_count =>
      let cc := char_count + 1
      if c.isWhitespace then
        if in_word then (cc - 1) :: cwbAux rest false cc
        else cwbAux rest false cc
      else cwbAux rest true cc

/-- Model of `TextAnimator::compute_word_boundaries`. -/
def compute_word_boundaries (text : List Char) : List ℕ :=
  cwbAux text false 0

/-- Model of `TextAnimator::new`. -/
def new (text : List Char) (animation : TextAnimation) : TextAnimator :=
  { full_text := text
    visible_chars :=
      match animation with
      | TextAnimation.Instant => text.length
      | _ => 0
    animation := animation
    elapsed := 0
    is_complete :=
      match animation with
      | TextAnimation.Instant => true
      | _ => false
    word_boundaries := compute_word_boundaries text }

/-- Per-character time cost of the `Stream` animation. -/
def streamCharDur (cps : ℚ) (c : Char) : ℚ :=
  if c.isWhitespace then (1/2) / cps
  else if c = '.' ∨ c = ',' ∨ c = '!' ∨ c = '?' then 2 / cps
  else 1 / cps

/-- The scanning loop of the `Stream` branch of `TextAnimator::update`:
walk the characters accumulating `time_consumed`; record `i + 1` as
`actual_chars` while the accumulated cost stays `≤ elapsed`; stop at the
first character that overshoots. -/
def streamLoop (elapsed cps : ℚ) : List Char → ℚ → ℕ → ℕ → ℕ
  | [], _, _, actual_chars => actual_chars
  | c :: rest, time_consumed, i, actual_chars =>
      let t2 := time_consumed + streamCharDur cps c
      if t2 ≤ elapsed then streamLoop elapsed cps rest t2 (i + 1) (i + 1)
      else actual_chars

/-- Model of `TextAnimator::update`.  The Rust float-to-`usize` casts of
`elapsed * cps` / `elapsed * wps` (truncation saturating below at 0) are
embedded as `Nat.floor`. -/
def update (s : TextAnimator) (delta_seconds : ℚ) : TextAnimator :=
  if s.is_complete then s
  else
    let elapsed := s.elapsed + delta_seconds
    let total_chars := s.full_text.length
    match s.animation with
    | TextAnimation.Instant =>
        { s with elapsed := elapsed, visible_chars := total_chars, is_complete := true }
    | TextAnimation.Typewriter cps =>
        let v := ⌊elapsed * cps⌋₊
        if total_chars ≤ v then
          { s with elapsed := elapsed, visible_chars := total_chars, is_complete := true }
        else
          { s with elapsed := elapsed, visible_chars := v }
    | TextAnimation.WordByWord wps =>
        let word_count := ⌊elapsed * wps⌋₊
        if word_count = 0 then
          { s with elapsed := elapsed, visible_chars := 0 }
        else if s.word_boundaries.length < word_count then
          { s with elapsed := elapsed, visible_chars := total_chars, is_complete := true }
        else
          { s with elapsed := elapsed,
                   visible_chars := s.word_boundaries.getD (word_count - 1) 0 }
    | TextAnimation.Stream cps =>
        let actual_chars := streamLoop elapsed cps s.full_text 0 0 0
        let v := min actual_chars total_chars
        if total_chars ≤ v then
          { s with elapsed := elapsed, visible_chars := v, is_complete := true }
        else
          { s with elapsed := elapsed, visible_chars := v }

/-- Model of `TextAnimator::reset`. -/
def reset (s : TextAnimator) : TextAnimator :=
  { s with
    elapsed := 0
    visible_chars :=
      match s.animation with
      | TextAnimation.Instant => s.full_text.length
      | _ => 0
    is_complete :=
      match s.animation with
      | TextAnimation.Instant => true
      | _ => false }

/-- Model of `TextAnimator::set_text`. -/
def set_text (s : TextAnimator) (text : List Char) : TextAnimator :=
  reset { s with full_text := text, word_boundaries := compute_word_boundaries text }

/-- Model of `TextAnimator::skip`. -/
def skip (s : TextAnimator) : TextAnimator :=
  { s with visible_chars := s.full_text.length, is_complete := true }

end TextAnimator

/-! ## `ghost-ui/src/elements/callout/mod.rs` — `Callout` -/

/-- Model of `VisibilityState` from `callout/mod.rs`. -/
inductive VisibilityState where
  | Hidden
  | FadingIn (progress : ℚ)
  | Visible
  | FadingOut (progress : ℚ)
deriving DecidableEq, Repr

/-- Model of `Callout` from `callout/mod.rs`, restricted to the fields that drive the
visibility state machine and text reveal.  Geometry and GPU fields
(`callout_type`, `position`, `arrow`, `max_width`, `style`, the renderers,
`shape`, `scale_factor`, `needs_shape_regen`) never feed back into
`update`/`opacity` and are elided. -/
structure Callout where
  timing : CalloutTiming
  text_animation : TextAnimation
  text_animator : Option TextAnimator
  visibility : VisibilityState
  elapsed : ℚ
  is_visible : Bool
deriving DecidableEq, Repr

namespace Callout

/-- Model of `Callout::show_text` (the common body of `say`/`think`/`scream`). -/
def show_text (c : Callout) (text : List Char) : Callout :=
  { c with
    text_animator := some (TextAnimator.new text c.text_animation)
    elapsed := 0
    is_visible := true
    visibility :=
      if c.timing.delay = 0 then
        if c.timing.fade_in = 0 then VisibilityState.Visible
        else VisibilityState.FadingIn 0
      else VisibilityState.Hidden }

/-- Model of `Callout::hide`. -/
def hide (c : Callout) : Callout :=
  if c.is_visible then
    if c.timing.fade_out = 0 then
      { c with is_visible := false, visibility := VisibilityState.Hidden }
    else
      { c with visibility := VisibilityState.FadingOut 0 }
  else c

/-- Model of `Callout::update`. -/
def update (c : Callout) (delta_seconds : ℚ) : Callout :=
  if c.is_visible = false ∧ c.visibility = VisibilityState.Hidden then c
  else
    let c := { c with elapsed := c.elapsed + delta_seconds }
    if c.elapsed < c.timing.delay then c
    else
      let c :=
        match c.visibility with
        | VisibilityState.Hidden =>
            { c with visibility :=
                if c.timing.fade_in = 0 then VisibilityState.Visible
                else VisibilityState.FadingIn 0 }
        | VisibilityState.FadingIn progress =>
            let new_progress := progress + delta_seconds / c.timing.fade_in
            if 1 ≤ new_progress then
              { c with visibility := VisibilityState.Visible }
            else
              { c with visibility := VisibilityState.FadingIn new_progress }
        | VisibilityState.Visible =>
            match c.timing.duration with
            | some duration =>
                let visible_time := c.elapsed - c.timing.delay
                if duration ≤ visible_time then
                  if c.timing.fade_out = 0 then
                    { c with is_visible := false, visibility := VisibilityState.Hidden }
                  else
                    { c with visibility := VisibilityState.FadingOut 0 }
                else c
            | none => c
        | VisibilityState.FadingOut progress =>
            let new_progress := progress + delta_seconds / c.timing.fade_out
            if 1 ≤ new_progress then
              { c with visibility := VisibilityState.Hidden, is_visible := false }
            else
              { c with visibility := VisibilityState.FadingOut new_progress }
      { c with text_animator := c.text_animator.map (fun a => a.update delta_seconds) }

/-- Model of `Callout::opacity`. -/
def opacity (c : Callout) : ℚ :=
  match c.visibility with
  | VisibilityState.Hidden => 0
  | VisibilityState.FadingIn progress => progress
  | VisibilityState.Visible => 1
  | VisibilityState.FadingOut progress => 1 - progress

end Callout

/-! ### Claim C1: callout opacity timeline -/

/-- The timing of claim C1: `delay = 0`, `fade_in = 0.15 s`,
`duration = 2 s`, `fade_out = 0.15 s`. -/
def c1Timing : CalloutTiming :=
  { duration := some 2, delay := 0, fade_in := 3/20, fade_out := 3/20 }

/-- A callout with the C1 timing immediately after `show_text`. -/
def c1Callout : Callout :=
  Callout.show_text
    { timing := c1Timing
      text_animation := TextAnimation.Instant
      text_animator := none
      visibility := VisibilityState.Hidden
      elapsed := 0
      is_visible := false }
    []

/-- The callout state after `k` update steps of 0.05 s each
(elapsed time `t = k/20` seconds). -/
def c1State (k : ℕ) : Callout :=
  (List.replicate k ((1:ℚ)/20)).foldl Callout.update c1Callout

/-- Opacity after `k` update steps of 0.05 s each. -/
def c1Opacity (k : ℕ) : ℚ :=
  (c1State k).opacity

theorem c1State_succ (k : ℕ) :
    c1State (k + 1) = Callout.update (c1State k) ((1:ℚ)/20) := by
  unfold c1State
  rw [List.replicate_succ', List.foldl_append]
  rfl

/-- Shape of every state reached in the C1 trace. -/
def c1At (e : ℚ) (vis : VisibilityState) (iv : Bool) : Callout :=
  { timing := c1Timing
    text_animation := TextAnimation.Instant
    text_animator := some (TextAnimator.new [] TextAnimation.Instant)
    visibility := vis
    elapsed := e
    is_visible := iv }

theorem c1Animator_fix (delta : ℚ) :
    (TextAnimator.new [] TextAnimation.Instant).update delta =
      TextAnimator.new [] TextAnimation.Instant := rfl

theorem c1Callout_eq : c1Callout = c1At 0 (VisibilityState.FadingIn 0) true := by
  unfold c1Callout Callout.show_text c1At c1Timing
  norm_num

theorem c1_step_fadein (e p : ℚ) (he : 0 ≤ e) :
    Callout.update (c1At e (VisibilityState.FadingIn p) true) ((1:ℚ)/20) =
      if 1 ≤ p + 1/3 then c1At (e + 1/20) VisibilityState.Visible true
      else c1At (e + 1/20) (VisibilityState.FadingIn (p + 1/3)) true := by
  unfold Callout.update c1At c1Timing
  simp only [Option.map_some, c1Animator_fix]
  norm_num
  rw [if_neg (by linarith)]
  split_ifs with hp <;> rfl

theorem c1_step_visible (e : ℚ) (he : 0 ≤ e) :
    Callout.update (c1At e VisibilityState.Visible true) ((1:ℚ)/20) =
      if 2 ≤ e + 1/20 then c1At (e + 1/20) (VisibilityState.FadingOut 0) true
      else c1At (e + 1/20) VisibilityState.Visible true := by
  unfold Callout.update c1At c1Timing
  simp only [Option.map_some, c1Animator_fix]
  norm_num
  rw [if_neg (by linarith)]
  split_ifs with hp <;> rfl

theorem c1_step_fadeout (e p : ℚ) (he : 0 ≤ e) :
    Callout.update (c1At e (VisibilityState.FadingOut p) true) ((1:ℚ)/20) =
      if 1 ≤ p + 1/3 then c1At (e + 1/20) VisibilityState.Hidden false
      else c1At (e + 1/20) (VisibilityState.FadingOut (p + 1/3)) true := by
  unfold Callout.update c1At c1Timing
  simp only [Option.map_some, c1Animator_fix]
  norm_num
  rw [if_neg (by linarith)]
  split_ifs with hp <;> rfl

theorem c1_step_hidden (e : ℚ) :
    Callout.update (c1At e VisibilityState.Hidden false) ((1:ℚ)/20) =
      c1At e VisibilityState.Hidden false := by
  unfold Callout.update c1At c1Timing
  norm_num

/-- Visibility phase after `k` steps of 0.05 s. -/
def c1Phase (k : ℕ) : VisibilityState :=
  if k = 0 then VisibilityState.FadingIn 0
  else if k ≤ 2 then VisibilityState.FadingIn ((k : ℚ)/3)
  else if k ≤ 39 then VisibilityState.Visible
  else if k ≤ 42 then VisibilityState.FadingOut (((k : ℚ) - 40)/3)
  else VisibilityState.Hidden

theorem c1State_closed (k : ℕ) (hk : k ≤ 43) :
    c1State k = c1At ((k : ℚ)/20) (c1Phase k) (decide (k ≤ 42)) := by
  induction k with
  | zero =>
      simpa [c1Phase] using c1Callout_eq
  | succ k ih =>
      have hk' : k ≤ 43 := by omega
      have hcast : ((k : ℚ))/20 + 1/20 = (((k+1 : ℕ) : ℚ))/20 := by
        push_cast
        ring
      have hpos : (0:ℚ) ≤ (k : ℚ)/20 := by positivity
      have hvis : decide (k ≤ 42) = true := decide_eq_true (by omega)
      rw [c1State_succ, ih hk', hvis]
      by_cases h0 : k = 0
      · subst h0
        rw [show c1Phase 0 = VisibilityState.FadingIn 0 from rfl, c1_step_fadein _ _ hpos]
        norm_num [c1Phase]
      by_cases h2 : k ≤ 2
      · have hc : c1Phase k = VisibilityState.FadingIn ((k : ℚ)/3) := by
          unfold c1Phase
          rw [if_neg h0, if_pos h2]
        rw [hc, c1_step_fadein _ _ hpos, hcast]
        interval_cases k <;> norm_num [c1Phase]
      by_cases h39 : k ≤ 39
      · have hc : c1Phase k = VisibilityState.Visible := by
          unfold c1Phase
          rw [if_neg h0, if_neg h2, if_pos h39]
        rw [hc, c1_step_visible _ hpos, hcast]
        by_cases h38 : k ≤ 38
        · have hlt : ((k + 1 : ℕ) : ℚ)/20 < 2 := by
            rw [div_lt_iff (by norm_num : (0:ℚ) < 20)]
            have hkq : (k : ℚ) ≤ 38 := by exact_mod_cast h38
            push_cast
            linarith
          rw [if_neg (not_le.mpr hlt)]
          have hp : c1Phase (k + 1) = VisibilityState.Visible := by
            unfold c1Phase
            rw [if_neg (by omega), if_neg (by omega), if_pos (by omega)]
          have hvis2 : decide (k + 1 ≤ 42) = true := decide_eq_true (by omega)
          rw [hp, hvis2]
        · have h39' : k = 39 := by omega
          subst h39'
          rw [if_pos (by norm_num)]
          norm_num [c1Phase]
      by_cases h42 : k ≤ 42
      · have hc : c1Phase k = VisibilityState.FadingOut (((k : ℚ) - 40)/3) := by
          unfold c1Phase
          rw [if_neg h0, if_neg h2, if_neg h39, if_pos h42]
        rw [hc, c1_step_fadeout _ _ hpos, hcast]
        interval_cases k <;> norm_num [c1Phase]
      · omega

theorem c1State_ge43 (m : ℕ) : c1State (43 + m) = c1State 43 := by
  induction m with
  | zero => rfl
  | succ m ih =>
      rw [← Nat.add_assoc, c1State_succ, ih, c1State_closed 43 le_rfl]
      rw [show c1Phase 43 = VisibilityState.Hidden from rfl]
      rw [show decide (43 ≤ 42) = false from rfl]
      rw [c1_step_hidden]

/-- Counterexample to C1 as stated: at elapsed time `t = 2.05 s`, which lies
inside the claimed all-opaque interval `[0.15, 2.15)`, the opacity is `2/3`,
not 1 — the fade-out has already begun, because the code starts it once
`elapsed - delay ≥ duration` (here at `t = 2.0 s`), counting the fade-in
time inside `duration` rather than starting the clock when the callout
became fully visible. -/
theorem c1_counterexample_fadeout_early :
    (c1State 41).elapsed = 41/20 ∧
    (3:ℚ)/20 ≤ 41/20 ∧ (41:ℚ)/20 < 43/20 ∧
    c1Opacity 41 = 2/3 := by
  have h := c1State_closed 41 (by omega)
  unfold c1Opacity
  rw [h]
  norm_num [c1Phase, c1At, Callout.opacity]

/-- C1 (amended): for the callout with
`delay=0, fade_in=0.15 s, duration=2 s, fade_out=0.15 s`, advanced by
uniform `update` steps of 0.05 s (after `k` steps the elapsed time is
`t = k/20` s): `opacity()` is 0 at `t=0`, strictly increasing on
`[0, 0.15]`, exactly 1 on `[0.15, 2.0]`, strictly decreasing on
`[2.0, 2.15]`, and 0 for every `t ≥ 2.15`.  The auto fade-out begins once
`duration` has elapsed since the end of the delay (the start of the
fade-in), not since the callout became fully visible: with zero delay it
starts at `t = 2.0 s`, not `t = 2.15 s`. -/
theorem c1_amended_opacity_timeline :
    c1Opacity 0 = 0 ∧
    (∀ k < 3, c1Opacity k < c1Opacity (k + 1)) ∧
    (∀ k < 41, 3 ≤ k → c1Opacity k = 1) ∧
    (∀ k < 43, 40 ≤ k → c1Opacity (k + 1) < c1Opacity k) ∧
    (∀ k : ℕ, 43 ≤ k → c1Opacity k = 0) := by
  have hop : ∀ k, k ≤ 43 → c1Opacity k = (c1At ((k : ℚ)/20) (c1Phase k)
      (decide (k ≤ 42))).opacity := by
    intro k hk
    unfold c1Opacity
    rw [c1State_closed k hk]
  refine ⟨?_, ?_, ?_, ?_, ?_⟩
  · rw [hop 0 (by omega)]
    norm_num [c1Phase, c1At, Callout.opacity]
  · intro k hk
    rw [hop k (by omega), hop (k+1) (by omega)]
    interval_cases k <;> norm_num [c1Phase, c1At, Callout.opacity]
  · intro k hk h3
    rw [hop k (by omega)]
    have hcase : k ≤ 39 ∨ k = 40 := by omega
    rcases hcase with h | h
    · unfold c1Phase
      rw [if_neg (by omega), if_neg (by omega), if_pos h]
      norm_num [c1At, Callout.opacity]
    · subst h
      norm_num [c1Phase, c1At, Callout.opacity]
  · intro k hk h40
    rw [hop k (by omega), hop (k+1) (by omega)]
    interval_cases k <;> norm_num [c1Phase, c1At, Callout.opacity]
  · intro k hk
    have h43 : 43 + (k - 43) = k := by omega
    have hstep : c1Opacity k = c1Opacity 43 := by
      rw [← h43]
      unfold c1Opacity
      rw [c1State_ge43]
    rw [hstep, hop 43 (by omega)]
    norm_num [c1Phase, c1At, Callout.opacity]

/-- Witness for the amended C1 timeline at concrete step counts. -/
theorem c1_amended_opacity_timeline_witness :
    c1Opacity 20 = 1 ∧ c1Opacity 42 < c1Opacity 41 ∧ c1Opacity 50 = 0 :=
  ⟨c1_amended_opacity_timeline.2.2.1 20 (by norm_num) (by norm_num),
   c1_amended_opacity_timeline.2.2.2.1 41 (by norm_num) (by norm_num),
   c1_amended_opacity_timeline.2.2.2.2 50 (by norm_num)⟩

/-! ### Claim C6: `visible_chars` monotonicity -/

theorem floor_mul_mono (r : ℚ) {e1 e2 : ℚ} (h0 : 0 ≤ e1) (h : e1 ≤ e2) :
    ⌊e1 * r⌋₊ ≤ ⌊e2 * r⌋₊ := by
  rcases le_or_lt 0 r with hr | hr
  · exact Nat.floor_mono (by nlinarith)
  · have h1 : e1 * r ≤ 0 := mul_nonpos_of_nonneg_of_nonpos h0 (le_of_lt hr)
    rw [Nat.floor_of_nonpos h1]
    exact Nat.zero_le _

theorem cwbAux_bounds (cs : List Char) : ∀ (w : Bool) (cnt : ℕ),
    (∀ x ∈ TextAnimator.cwbAux cs w cnt, cnt ≤ x ∧ x ≤ cnt + cs.length) ∧
    (TextAnimator.cwbAux cs w cnt).Pairwise (· ≤ ·) := by
  induction cs with
  | nil =>
      intro w cnt
      unfold TextAnimator.cwbAux
      constructor
      · intro x hx
        split at hx <;> simp_all
      · split <;> simp
  | cons c rest ih =>
      intro w cnt
      unfold TextAnimator.cwbAux
      dsimp only
      by_cases hw : c.isWhitespace
      · rw [if_pos hw]
        by_cases hiw : w = true
        · rw [if_pos hiw]
          simp only [Nat.add_sub_cancel]
          obtain ⟨ihb, ihp⟩ := ih false (cnt + 1)
          constructor
          · intro x hx
            rcases List.mem_cons.mp hx with h | h
            · subst h
              simp only [List.length_cons]
              omega
            · have := ihb x h
              simp only [List.length_cons]
              omega
          · refine List.pairwise_cons.mpr ⟨?_, ihp⟩
            intro x hx
            have := (ihb x hx).1
            omega
        · rw [if_neg hiw]
          obtain ⟨ihb, ihp⟩ := ih false (cnt + 1)
          refine ⟨?_, ihp⟩
          intro x hx
          have := ihb x hx
          simp only [List.length_cons]
          omega
      · rw [if_neg hw]
        obtain ⟨ihb, ihp⟩ := ih true (cnt + 1)
        refine ⟨?_, ihp⟩
        intro x hx
        have := ihb x hx
        simp only [List.length_cons]
        omega

theorem compute_word_boundaries_le (text : List Char) :
    ∀ x ∈ TextAnimator.compute_word_boundaries text, x ≤ text.length := by
  intro x hx
  have := ((cwbAux_bounds text false 0).1 x hx).2
  simpa using this

theorem compute_word_boundaries_pairwise (text : List Char) :
    (TextAnimator.compute_word_boundaries text).Pairwise (· ≤ ·) :=
  (cwbAux_bounds text false 0).2

theorem getD_mono {l : List ℕ} (hp : l.Pairwise (· ≤ ·)) {i j : ℕ}
    (hij : i ≤ j) (hj : j < l.length) : l.getD i 0 ≤ l.getD j 0 := by
  rcases eq_or_lt_of_le hij with h | h
  · subst h
    exact le_refl _
  · have hi : i < l.length := lt_trans h hj
    rw [List.getD_eq_getElem _ _ hi, List.getD_eq_getElem _ _ hj]
    exact List.pairwise_iff_getElem.mp hp i j hi hj h

theorem getD_le_of_forall {l : List ℕ} {n : ℕ} (hb : ∀ x ∈ l, x ≤ n) {i : ℕ}
    (hi : i < l.length) : l.getD i 0 ≤ n := by
  rw [List.getD_eq_getElem _ _ hi]
  exact hb _ (List.getElem_mem hi)

theorem streamLoop_ge (e cps : ℚ) : ∀ (cs : List Char) (t : ℚ) (i actual : ℕ),
    actual ≤ i → actual ≤ TextAnimator.streamLoop e cps cs t i actual := by
  intro cs
  induction cs with
  | nil =>
      intro t i actual hai
      exact le_refl _
  | cons c rest ih =>
      intro t i actual hai
      unfold TextAnimator.streamLoop
      dsimp only
      split
      · have := ih (t + TextAnimator.streamCharDur cps c) (i + 1) (i + 1) (le_refl _)
        omega
      · exact le_refl _

theorem streamLoop_mono (cps : ℚ) {e1 e2 : ℚ} (h : e1 ≤ e2) :
    ∀ (cs : List Char) (t : ℚ) (i actual : ℕ), actual ≤ i →
      TextAnimator.streamLoop e1 cps cs t i actual ≤
        TextAnimator.streamLoop e2 cps cs t i actual := by
  intro cs
  induction cs with
  | nil =>
      intro t i actual hai
      exact le_refl _
  | cons c rest ih =>
      intro t i actual hai
      unfold TextAnimator.streamLoop
      dsimp only
      by_cases h1 : t + TextAnimator.streamCharDur cps c ≤ e1
      · rw [if_pos h1, if_pos (le_trans h1 h)]
        exact ih _ _ _ (le_refl _)
      · rw [if_neg h1]
        by_cases h2 : t + TextAnimator.streamCharDur cps c ≤ e2
        · rw [if_pos h2]
          have := streamLoop_ge e2 cps rest (t + TextAnimator.streamCharDur cps c)
            (i + 1) (i + 1) (le_refl _)
          omega
        · rw [if_neg h2]

/-- The value `TextAnimator::update` assigns to `visible_chars` as a function
of the accumulated elapsed time (specification helper for the C6 proof). -/
def visOf (anim : TextAnimation) (text : List Char) (bs : List ℕ) (e : ℚ) : ℕ :=
  match anim with
  | TextAnimation.Instant => text.length
  | TextAnimation.Typewriter cps => min ⌊e * cps⌋₊ text.length
  | TextAnimation.WordByWord wps =>
      let wc := ⌊e * wps⌋₊
      if wc = 0 then 0
      else if bs.length < wc then text.length
      else bs.getD (wc - 1) 0
  | TextAnimation.Stream cps =>
      min (TextAnimator.streamLoop e cps text 0 0 0) text.length

theorem visOf_le_total (anim : TextAnimation) (text : List Char) (bs : List ℕ)
    (hb : ∀ x ∈ bs, x ≤ text.length) (e : ℚ) :
    visOf anim text bs e ≤ text.length := by
  unfold visOf
  cases anim with
  | Instant => exact le_refl _
  | Typewriter cps => exact min_le_right _ _
  | WordByWord wps =>
      dsimp only
      split
      · exact Nat.zero_le _
      · split
        · exact le_refl _
        · exact getD_le_of_forall hb (by omega)
  | Stream cps => exact min_le_right _ _

theorem visOf_mono (anim : TextAnimation) (text : List Char) (bs : List ℕ)
    (hp : bs.Pairwise (· ≤ ·)) (hb : ∀ x ∈ bs, x ≤ text.length)
    {e1 e2 : ℚ} (h0 : 0 ≤ e1) (h : e1 ≤ e2) :
    visOf anim text bs e1 ≤ visOf anim text bs e2 := by
  unfold visOf
  cases anim with
  | Instant => exact le_refl _
  | Typewriter cps => exact min_le_min (floor_mul_mono cps h0 h) (le_refl _)
  | WordByWord wps =>
      dsimp only
      have hwc : ⌊e1 * wps⌋₊ ≤ ⌊e2 * wps⌋₊ := floor_mul_mono wps h0 h
      by_cases hz1 : ⌊e1 * wps⌋₊ = 0
      · rw [if_pos hz1]
        exact Nat.zero_le _
      · have hz2 : ¬ ⌊e2 * wps⌋₊ = 0 := by omega
        rw [if_neg hz1, if_neg hz2]
        by_cases hl1 : bs.length < ⌊e1 * wps⌋₊
        · have hl2 : bs.length < ⌊e2 * wps⌋₊ := by omega
          rw [if_pos hl1, if_pos hl2]
        · rw [if_neg hl1]
          by_cases hl2 : bs.length < ⌊e2 * wps⌋₊
          · rw [if_pos hl2]
            exact getD_le_of_forall hb (by omega)
          · rw [if_neg hl2]
            exact getD_mono hp (by omega) (by omega)
  | Stream cps =>
      exact min_le_min (streamLoop_mono cps h text 0 0 0 (le_refl _)) (le_refl _)

/-- Invariant of one reveal session (established by `TextAnimator::new` and
preserved by `update` with non-negative deltas). -/
def TAInv (s : TextAnimator) : Prop :=
  0 ≤ s.elapsed ∧
  s.visible_chars ≤ s.full_text.length ∧
  s.word_boundaries = TextAnimator.compute_word_boundaries s.full_text ∧
  (s.is_complete = false →
    s.visible_chars ≤ visOf s.animation s.full_text s.word_boundaries s.elapsed)

theorem TAInv_new (text : List Char) (anim : TextAnimation) :
    TAInv (TextAnimator.new text anim) := by
  unfold TAInv TextAnimator.new
  cases anim <;> simp

/-- Field-level description of one non-complete `update` step: the new
`visible_chars` is exactly `visOf` at the new elapsed time, and the static
fields are unchanged. -/
theorem update_visible_eq (s : TextAnimator) (delta : ℚ)
    (hc : s.is_complete = false) :
    (s.update delta).visible_chars =
      visOf s.animation s.full_text s.word_boundaries (s.elapsed + delta) ∧
    (s.update delta).elapsed = s.elapsed + delta ∧
    (s.update delta).full_text = s.full_text ∧
    (s.update delta).word_boundaries = s.word_boundaries ∧
    (s.update delta).animation = s.animation := by
  unfold TextAnimator.update
  rw [if_neg (by simp [hc])]
  cases hA : s.animation with
  | Instant =>
      refine ⟨?_, rfl, rfl, rfl, rfl⟩
      simp [visOf]
  | Typewriter cps =>
      dsimp only
      split
      · rename_i hge
        refine ⟨?_, rfl, rfl, rfl, rfl⟩
        simp only [visOf]
        omega
      · rename_i hlt
        refine ⟨?_, rfl, rfl, rfl, rfl⟩
        simp only [visOf]
        omega
  | WordByWord wps =>
      dsimp only
      split
      · rename_i hz
        refine ⟨?_, rfl, rfl, rfl, rfl⟩
        simp only [visOf]
        rw [if_pos hz]
      · rename_i hz
        split
        · rename_i hl
          refine ⟨?_, rfl, rfl, rfl, rfl⟩
          simp only [visOf]
          rw [if_neg hz, if_pos hl]
        · rename_i hl
          refine ⟨?_, rfl, rfl, rfl, rfl⟩
          simp only [visOf]
          rw [if_neg hz, if_neg hl]
  | Stream cps =>
      dsimp only
      split
      · refine ⟨rfl, rfl, rfl, rfl, rfl⟩
      · refine ⟨rfl, rfl, rfl, rfl, rfl⟩

/-- One `update` step with a non-negative delta preserves the session
invariant and never decreases `visible_chars`. -/
theorem update_step (s : TextAnimator) (delta : ℚ) (hd : 0 ≤ delta)
    (hI : TAInv s) :
    TAInv (s.update delta) ∧ s.visible_chars ≤ (s.update delta).visible_chars := by
  obtain ⟨he, hv, hb, hcomp⟩ := hI
  by_cases hc : s.is_complete = true
  · have : s.update delta = s := by
      unfold TextAnimator.update
      rw [if_pos hc]
    rw [this]
    exact ⟨⟨he, hv, hb, hcomp⟩, le_refl _⟩
  · have hc' : s.is_complete = false := by
      cases h : s.is_complete
      · rfl
      · exact absurd h hc
    obtain ⟨hvis, hel, hft, hwb, han⟩ := update_visible_eq s delta hc'
    have hpair : s.word_boundaries.Pairwise (· ≤ ·) := by
      rw [hb]
      exact compute_word_boundaries_pairwise _
    have hbnd : ∀ x ∈ s.word_boundaries, x ≤ s.full_text.length := by
      rw [hb]
      exact compute_word_boundaries_le _
    have hmono : visOf s.animation s.full_text s.word_boundaries s.elapsed ≤
        visOf s.animation s.full_text s.word_boundaries (s.elapsed + delta) :=
      visOf_mono _ _ _ hpair hbnd he (by linarith)
    have hold : s.visible_chars ≤
        visOf s.animation s.full_text s.word_boundaries s.elapsed := hcomp hc'
    refine ⟨⟨?_, ?_, ?_, ?_⟩, ?_⟩
    · rw [hel]
      linarith
    · rw [hvis, hft]
      exact visOf_le_total _ _ _ hbnd _
    · rw [hwb, hft]
      exact hb
    · intro _
      rw [hvis, hel, hft, hwb, han]
    · rw [hvis]
      exact le_trans hold hmono

theorem TAInv_foldl (ds : List ℚ) : ∀ s : TextAnimator, TAInv s →
    (∀ d ∈ ds, 0 ≤ d) → TAInv (ds.foldl TextAnimator.update s) := by
  induction ds with
  | nil =>
      intro s hI _
      exact hI
  | cons d rest ih =>
      intro s hI hds
      exact ih _ (update_step s d (hds d (by simp)) hI).1
        (fun x hx => hds x (by simp [hx]))

/-- Well-formedness of the animation parameters under which the `ℚ`
embedding is faithful to the `f32` source: a `Stream` rate of exactly 0
makes the Rust per-character costs infinite while `1/0 = 0` in `ℚ`, so it
is excluded; all other kinds are embedded faithfully for every rate. -/
def animWF : TextAnimation → Prop
  | TextAnimation.Stream cps => cps ≠ 0
  | _ => True

/-- C6: within one reveal session — from construction (`new`), from
`reset`, or from `set_text`, each of which yields exactly a freshly
constructed animator — and for every reveal kind and every sequence of
`update` calls with non-negative deltas, `visible_chars` is monotonically
non-decreasing: each further update leaves it at least as large. -/
theorem c6_visible_chars_monotone :
    (∀ s : TextAnimator,
        s.word_boundaries = TextAnimator.compute_word_boundaries s.full_text →
        s.reset = TextAnimator.new s.full_text s.animation) ∧
    (∀ (s : TextAnimator) (text : List Char),
        s.set_text text = TextAnimator.new text s.animation) ∧
    (∀ (text : List Char) (anim : TextAnimation), animWF anim →
      ∀ ds : List ℚ, (∀ d ∈ ds, 0 ≤ d) → ∀ delta : ℚ, 0 ≤ delta →
        (ds.foldl TextAnimator.update (TextAnimator.new text anim)).visible_chars ≤
          ((ds.foldl TextAnimator.update
            (TextAnimator.new text anim)).update delta).visible_chars) := by
  refine ⟨?_, ?_, ?_⟩
  · intro s hwb
    unfold TextAnimator.reset TextAnimator.new
    rw [hwb]
  · intro s text
    unfold TextAnimator.set_text TextAnimator.reset TextAnimator.new
    rfl
  · intro text anim _ ds hds delta hd
    exact (update_step _ delta hd (TAInv_foldl ds _ (TAInv_new text anim) hds)).2

/-- Witness for C6 at a concrete typewriter session. -/
theorem c6_visible_chars_monotone_witness :
    ((([(1:ℚ)/2, 1/4].foldl TextAnimator.update
        (TextAnimator.new ['h', 'i'] (TextAnimation.Typewriter 2)))).visible_chars ≤
      (([(1:ℚ)/2, 1/4].foldl TextAnimator.update
        (TextAnimator.new ['h', 'i'] (TextAnimation.Typewriter 2))).update
          (1/4)).visible_chars) :=
  c6_visible_chars_monotone.2.2 ['h', 'i'] (TextAnimation.Typewriter 2) trivial
    [(1:ℚ)/2, 1/4]
    (by intro d hd; fin_cases hd <;> norm_num)
    (1/4) (by norm_num)

/-! ## `src/vars.rs` — shared coordination state (`GhostState`)

The thread-safe `Arc<RwLock<Inner>>` handle is embedded as a plain record:
the event loop is single-threaded, so every read/write in the verified code
is sequential.  Only the fields the chat window reads or writes are kept
(`persona`, the callout entry, opacities and sizes are elided). -/

structure SnapConfig where
  scaled_extra_offset : ℤ × ℤ
deriving DecidableEq, Repr

structure GhostStateData where
  main_pos : ℤ × ℤ
  chat_visible : Bool
  chat_snapped : Bool
  chat_last_set_pos : ℤ × ℤ
  chat_just_resized : Bool
  snap_config : SnapConfig
deriving DecidableEq, Repr

/-! ## `src/windows/chat_window.rs` — `ChatWindow` -/

inductive ChatRole where
  | user
  | assistant
deriving DecidableEq, Repr

/-- Model of `ChatMessage`; the content string is embedded as a character list. -/
structure ChatMessage where
  role : ChatRole
  content : List Char
deriving DecidableEq, Repr

/-- Model of `ChatWindowCommand`. -/
inductive ChatWindowCommand where
  | Show
  | Hide
  | Toggle
  | AddMessage (msg : ChatMessage)
deriving DecidableEq, Repr

/-- Window events routed to the chat window.  Only the variants whose
handling drives the snap logic are distinguished; keyboard/cursor/focus
variants only feed the egui input pipeline and are collapsed into
`Other`. -/
inductive ChatEvent where
  | Resized (w h : ℕ)
  | Moved (x y : ℤ)
  | CloseRequested
  | Other
deriving DecidableEq, Repr

/-- Model of `ChatWindow`, restricted to the fields that drive visibility and snap
behavior.  GPU surface, egui context, channels and theme are elided; the
command channel appears as the list of drained commands passed to
`update_state`, and each `window.set_outer_position` call is recorded in
the output list of positions. -/
structure ChatWindow where
  state : GhostStateData
  visible : Bool
  was_visible : Bool
  needs_repaint : Bool
  messages : List ChatMessage
deriving DecidableEq, Repr

namespace ChatWindow

/-- Model of `ChatWindow::show` (the OS `set_visible`/`set_focus` calls are elided;
`show` is a Lean keyword, hence the prime). -/
def show' (w : ChatWindow) : ChatWindow :=
  { w with visible := true, needs_repaint := true }

/-- Model of `ChatWindow::hide`. -/
def hide (w : ChatWindow) : ChatWindow :=
  { w with visible := false }

/-- Model of `ChatWindow::toggle`. -/
def toggle (w : ChatWindow) : ChatWindow :=
  if w.visible then w.hide else w.show'

/-- Model of `ChatWindow::add_message`. -/
def add_message (w : ChatWindow) (msg : ChatMessage) : ChatWindow :=
  { w with messages := w.messages ++ [msg], needs_repaint := true }

/-- Dispatch of one drained channel command in `update_state`. -/
def processCommand (w : ChatWindow) : ChatWindowCommand → ChatWindow
  | ChatWindowCommand.Show => w.show'
  | ChatWindowCommand.Hide => w.hide
  | ChatWindowCommand.Toggle => w.toggle
  | ChatWindowCommand.AddMessage msg => w.add_message msg

/-- Model of `ChatWindow::update_state`.  `cmds` is the content of the command
channel drained by the `try_recv` loop; the returned list records the
`set_position` calls issued, in order. -/
def update_state (w : ChatWindow) (cmds : List ChatWindowCommand) :
    ChatWindow × List (ℤ × ℤ) :=
  let w := cmds.foldl processCommand w
  let w := { w with state := { w.state with chat_visible := w.visible } }
  let hidden_to_visible := w.visible && !w.was_visible
  let (w, out) :=
    if hidden_to_visible then
      let snap_x := w.state.main_pos.1 + w.state.snap_config.scaled_extra_offset.1
      let snap_y := w.state.main_pos.2 + w.state.snap_config.scaled_extra_offset.2
      ({ w with state := { w.state with
            chat_snapped := true
            chat_last_set_pos := (snap_x, snap_y) } },
        [(snap_x, snap_y)])
    else (w, [])
  let w := { w with was_visible := w.visible }
  if w.visible && w.state.chat_snapped then
    let new_x := w.state.main_pos.1 + w.state.snap_config.scaled_extra_offset.1
    let new_y := w.state.main_pos.2 + w.state.snap_config.scaled_extra_offset.2
    if new_x ≠ w.state.chat_last_set_pos.1 ∨ new_y ≠ w.state.chat_last_set_pos.2 then
      ({ w with state := { w.state with chat_last_set_pos := (new_x, new_y) } },
        out ++ [(new_x, new_y)])
    else (w, out)
  else (w, out)

/-- Model of `ChatWindow::handle_event_inner`: only the surface/size bookkeeping and
close handling are modeled; the remaining arms push egui input events,
which carry no verified state. -/
def handle_event_inner (w : ChatWindow) : ChatEvent → ChatWindow
  | ChatEvent.Resized wd ht =>
      if 0 < wd ∧ 0 < ht then { w with needs_repaint := true } else w
  | ChatEvent.CloseRequested => w.hide
  | _ => w

/-- Model of `ChatWindow::on_event`: the snap/unsnap detection followed by
`handle_event_inner`.  The returned list records the `set_position` calls
issued (only the re-snap branch issues one). -/
def on_event (w : ChatWindow) (ev : ChatEvent) : ChatWindow × List (ℤ × ℤ) :=
  let w :=
    match ev with
    | ChatEvent.Resized _ _ =>
        { w with state := { w.state with chat_just_resized := true } }
    | _ => w
  let (w, out) :=
    match ev with
    | ChatEvent.Moved px py =>
        if w.state.chat_just_resized then
          let w := { w with state := { w.state with chat_just_resized := false } }
          if w.state.chat_snapped then
            ({ w with state := { w.state with chat_last_set_pos := (px, py) } },
              ([] : List (ℤ × ℤ)))
          else (w, [])
        else
          let snap_x := w.state.main_pos.1 + w.state.snap_config.scaled_extra_offset.1
          let snap_y := w.state.main_pos.2 + w.state.snap_config.scaled_extra_offset.2
          if w.state.chat_snapped then
            if (10 : ℤ) < |px - w.state.chat_last_set_pos.1| ∨
                (10 : ℤ) < |py - w.state.chat_last_set_pos.2| then
              ({ w with state := { w.state with chat_snapped := false } }, [])
            else (w, [])
          else
            if |px - snap_x| ≤ 30 ∧ |py - snap_y| ≤ 30 then
              ({ w with state := { w.state with
                    chat_snapped := true
                    chat_last_set_pos := (snap_x, snap_y) } },
                [(snap_x, snap_y)])
            else (w, [])
    | _ => (w, [])
  (handle_event_inner w ev, out)

end ChatWindow

/-- C5: a satellite `Moved` event processed while the suppress-next-unsnap
flag (`chat_just_resized`) is set never unsnaps the chat window: the flag
is cleared, `chat_snapped` is unchanged, if still snapped the last
programmatic position is updated to the observed position, and no
reposition command is issued. -/
theorem c5_resize_suppresses_unsnap (w : ChatWindow) (px py : ℤ)
    (hflag : w.state.chat_just_resized = true) :
    (w.on_event (ChatEvent.Moved px py)).1.state.chat_snapped =
        w.state.chat_snapped ∧
    (w.on_event (ChatEvent.Moved px py)).1.state.chat_just_resized = false ∧
    (w.state.chat_snapped = true →
      (w.on_event (ChatEvent.Moved px py)).1.state.chat_last_set_pos = (px, py)) ∧
    (w.on_event (ChatEvent.Moved px py)).2 = [] := by
  by_cases hs : w.state.chat_snapped = true
  · simp [ChatWindow.on_event, ChatWindow.handle_event_inner, hflag, hs]
  · have hs' : w.state.chat_snapped = false := by
      cases h : w.state.chat_snapped
      · rfl
      · exact absurd h hs
    simp [ChatWindow.on_event, ChatWindow.handle_event_inner, hflag, hs']

/-- Witness for C5: a snapped window that just resized observes a move far
from the last programmatic position and stays snapped. -/
theorem c5_resize_suppresses_unsnap_witness :
    ((ChatWindow.mk
        (GhostStateData.mk (100, 100) true true (150, 100) true
          (SnapConfig.mk (50, 0)))
        true true false []).on_event
          (ChatEvent.Moved 400 100)).1.state.chat_snapped = true :=
  (c5_resize_suppresses_unsnap _ 400 100 rfl).1

/-- C3: with a scaled anchor offset of `(50, 0)`:
(a) while snapped and visible, after the shared state records the primary
window at `(140,100)` (moved from `(100,100)`, whose snap target
`(150,100)` is the recorded last programmatic position), the next
`update_state` issues exactly one reposition, to `(190,100)`, and records
it as the last programmatic position;
(b) a `Moved` event observing the satellite at `(400,100)` — more than the
10-pixel unsnap tolerance away from the last programmatic position
`(190,100)` — makes it unsnap;
(c) while unsnapped (and remaining visible), `update_state` never issues a
reposition command and leaves the window unsnapped, whatever the primary
window's position. -/
theorem c3_satellite_snap_protocol :
    (∀ w : ChatWindow, w.visible = true → w.was_visible = true →
      w.state.chat_snapped = true →
      w.state.snap_config.scaled_extra_offset = (50, 0) →
      w.state.main_pos = (140, 100) →
      w.state.chat_last_set_pos = (150, 100) →
        (w.update_state []).2 = [(190, 100)] ∧
        (w.update_state []).1.state.chat_last_set_pos = (190, 100) ∧
        (w.update_state []).1.state.chat_snapped = true) ∧
    (∀ w : ChatWindow, w.state.chat_just_resized = false →
      w.state.chat_snapped = true →
      w.state.chat_last_set_pos = (190, 100) →
        (w.on_event (ChatEvent.Moved 400 100)).1.state.chat_snapped = false ∧
        (w.on_event (ChatEvent.Moved 400 100)).2 = []) ∧
    (∀ w : ChatWindow, w.visible = true → w.was_visible = true →
      w.state.chat_snapped = false →
        (w.update_state []).2 = [] ∧
        (w.update_state []).1.state.chat_snapped = false) := by
  refine ⟨?_, ?_, ?_⟩
  · intro w hv hwv hs hoff hmain hlast
    simp [ChatWindow.update_state, hv, hwv, hs, hoff, hmain, hlast]
  · intro w hflag hs hlast
    simp [ChatWindow.on_event, ChatWindow.handle_event_inner, hflag, hs, hlast]
  · intro w hv hwv hs
    simp [ChatWindow.update_state, hv, hwv, hs]

/-- Witness for C3 at a concrete chat window state. -/
theorem c3_satellite_snap_protocol_witness :
    ((ChatWindow.mk
        (GhostStateData.mk (140, 100) true true (150, 100) false
          (SnapConfig.mk (50, 0)))
        true true false []).update_state []).2 = [(190, 100)] ∧
    ((ChatWindow.mk
        (GhostStateData.mk (140, 100) true true (190, 100) false
          (SnapConfig.mk (50, 0)))
        true true false []).on_event
          (ChatEvent.Moved 400 100)).1.state.chat_snapped = false :=
  ⟨(c3_satellite_snap_protocol.1 _ rfl rfl rfl rfl rfl rfl).1,
   (c3_satellite_snap_protocol.2.1 _ rfl rfl rfl).1⟩

/-! ## `ghost-ui/src/skin.rs` (`Skin`) and `ghost-ui/src/window/mod.rs`
(`WindowData` / hit testing) -/

/-- Model of `Skin` from `skin.rs`: the per-pixel alpha mask used for hit testing
(row-major, top-to-bottom); GPU texture fields elided.  Alpha bytes are
embedded as `ℕ`. -/
structure Skin where
  width : ℕ
  height : ℕ
  alpha_data : List ℕ
deriving DecidableEq, Repr

/-- Model of `Skin::hit_test`: the Rust `x as u32` cast truncates toward zero and
saturates below at 0, embedded as `Nat.floor` (so every negative coordinate
becomes pixel 0); saturation at `u32::MAX` is not modelled (any such value
fails the `width`/`height` bound check in both). -/
def Skin.hit_test (s : Skin) (x y : ℚ) (alpha_threshold : ℕ) : Bool :=
  let px := ⌊x⌋₊
  let py := ⌊y⌋₊
  if s.width ≤ px ∨ s.height ≤ py then false
  else
    let index := py * s.width + px
    if s.alpha_data.length ≤ index then false
    else decide (alpha_threshold < s.alpha_data.getD index 0)

/-- Model of `WindowConfig` from `window/config.rs`, restricted to the fields read
by the click-handling path (size, title, opacity and aspect fields
elided). -/
structure WindowConfig where
  click_through : Bool
  alpha_hit_test : Bool
  alpha_threshold : ℕ
deriving DecidableEq, Repr

/-- Model of `WindowData` from `window/mod.rs`, restricted to the fields read by
`hit_test_at_cursor` / `should_handle_click` (window handle, renderer,
focus/opacity state and skin offset elided).  Cursor positions (`f64`) are
embedded as `ℚ`. -/
structure WindowData where
  skin : Option Skin
  config : WindowConfig
  last_size : ℕ × ℕ
  cursor_position : Option (ℚ × ℚ)
  original_skin_size : Option (ℕ × ℕ)
deriving DecidableEq, Repr

namespace GhostWindow

/-- Model of `GhostWindow::hit_test_at_cursor`: scale the cursor position into
original-sprite space by `sprite_dim / window_dim` and delegate to
`Skin::hit_test`.  The `f64 → f32` narrowing of the scaled coordinates is
exact in the `ℚ` embedding. -/
def hit_test_at_cursor (d : WindowData) : Bool :=
  match d.cursor_position with
  | none => false
  | some cursor_pos =>
    match d.skin with
    | none => true
    | some skin =>
      match d.original_skin_size with
      | none => true
      | some orig =>
        if d.last_size.1 = 0 ∨ d.last_size.2 = 0 then false
        else
          let scale_x : ℚ := (orig.1 : ℚ) / (d.last_size.1 : ℚ)
          let scale_y : ℚ := (orig.2 : ℚ) / (d.last_size.2 : ℚ)
          skin.hit_test (cursor_pos.1 * scale_x) (cursor_pos.2 * scale_y)
            d.config.alpha_threshold

/-- Model of `GhostWindow::should_handle_click`. -/
def should_handle_click (d : WindowData) : Bool :=
  if d.config.click_through then false
  else if !d.config.alpha_hit_test then true
  else hit_test_at_cursor d

end GhostWindow

/-- A window state as produced by `set_skin` (which records the skin's own
dimensions as `original_skin_size`) with a live cursor position. -/
def mkHitWindow (skin : Skin) (cfg : WindowConfig) (cx cy : ℚ)
    (win_w win_h : ℕ) : WindowData :=
  { skin := some skin
    config := cfg
    last_size := (win_w, win_h)
    cursor_position := some (cx, cy)
    original_skin_size := some (skin.width, skin.height) }

/-- Counterexample to C2 as stated: `alpha_hit_test = true`,
`click_through = false`, a fully loaded 2×1 sprite whose alpha mask is
`[255, 0]`, window size equal to the sprite size, and cursor at
`(-5, 0)` — the scaled x-coordinate is `-5 < 0`, outside the sprite bounds
on the left, yet the click is reported clickable: the `as u32` cast clamps
every negative coordinate to pixel column/row 0, whose alpha 255 exceeds
the threshold 10. -/
theorem c2_counterexample_negative_cursor :
    (-5 : ℚ) * ((2 : ℚ) / 2) < 0 ∧
    GhostWindow.should_handle_click
      (mkHitWindow (Skin.mk 2 1 [255, 0])
        (WindowConfig.mk false true 10) (-5) 0 2 1) = true := by
  constructor
  · norm_num
  · unfold GhostWindow.should_handle_click GhostWindow.hit_test_at_cursor
      mkHitWindow Skin.hit_test
    have hf : ⌊(-5 : ℚ)⌋₊ = 0 := Nat.floor_eq_zero.mpr (by norm_num)
    norm_num [hf, List.getD]

/-- C2 (amended): for every window with `alpha_hit_test = true` and
`click_through = false`, a loaded sprite with a full alpha mask, and a
nonzero window size, with the cursor scaled into sprite space by
`sprite_dim / window_dim` and truncated (negative coordinates clamping to
pixel 0): if the truncated pixel coordinates lie at or beyond the
right/bottom sprite edge the click is reported not clickable; otherwise —
including for negative cursor coordinates, which are clamped to the
sprite's first column/row rather than rejected — the click is reported
clickable exactly when the alpha of the addressed pixel exceeds the
threshold. -/
theorem c2_amended_hit_test (skin : Skin) (cfg : WindowConfig)
    (cx cy : ℚ) (win_w win_h : ℕ)
    (hct : cfg.click_through = false) (hat : cfg.alpha_hit_test = true)
    (hww : win_w ≠ 0) (hwh : win_h ≠ 0)
    (hlen : skin.alpha_data.length = skin.width * skin.height) :
    ((skin.width ≤ ⌊cx * ((skin.width : ℚ) / (win_w : ℚ))⌋₊ ∨
        skin.height ≤ ⌊cy * ((skin.height : ℚ) / (win_h : ℚ))⌋₊) →
      GhostWindow.should_handle_click
        (mkHitWindow skin cfg cx cy win_w win_h) = false) ∧
    (⌊cx * ((skin.width : ℚ) / (win_w : ℚ))⌋₊ < skin.width →
      ⌊cy * ((skin.height : ℚ) / (win_h : ℚ))⌋₊ < skin.height →
      (GhostWindow.should_handle_click
          (mkHitWindow skin cfg cx cy win_w win_h) = true ↔
        cfg.alpha_threshold <
          skin.alpha_data.getD
            (⌊cy * ((skin.height : ℚ) / (win_h : ℚ))⌋₊ * skin.width +
              ⌊cx * ((skin.width : ℚ) / (win_w : ℚ))⌋₊) 0)) := by
  have hshc : GhostWindow.should_handle_click
      (mkHitWindow skin cfg cx cy win_w win_h) =
      skin.hit_test (cx * ((skin.width : ℚ) / (win_w : ℚ)))
        (cy * ((skin.height : ℚ) / (win_h : ℚ))) cfg.alpha_threshold := by
    unfold GhostWindow.should_handle_click GhostWindow.hit_test_at_cursor
      mkHitWindow
    simp [hct, hat, hww, hwh]
  constructor
  · intro hout
    rw [hshc]
    unfold Skin.hit_test
    rw [if_pos hout]
  · intro hpx hpy
    rw [hshc]
    unfold Skin.hit_test
    rw [if_neg (by push_neg; omega)]
    have hidx : ⌊cy * ((skin.height : ℚ) / (win_h : ℚ))⌋₊ * skin.width +
        ⌊cx * ((skin.width : ℚ) / (win_w : ℚ))⌋₊ < skin.alpha_data.length := by
      rw [hlen]
      have h1 : ⌊cy * ((skin.height : ℚ) / (win_h : ℚ))⌋₊ * skin.width +
          ⌊cx * ((skin.width : ℚ) / (win_w : ℚ))⌋₊ <
          (⌊cy * ((skin.height : ℚ) / (win_h : ℚ))⌋₊ + 1) * skin.width := by
        rw [Nat.succ_mul]
        omega
      have h2 : (⌊cy * ((skin.height : ℚ) / (win_h : ℚ))⌋₊ + 1) * skin.width ≤
          skin.height * skin.width :=
        Nat.mul_le_mul_right _ (by omega)
      calc ⌊cy * ((skin.height : ℚ) / (win_h : ℚ))⌋₊ * skin.width +
            ⌊cx * ((skin.width : ℚ) / (win_w : ℚ))⌋₊
          < (⌊cy * ((skin.height : ℚ) / (win_h : ℚ))⌋₊ + 1) * skin.width := h1
        _ ≤ skin.height * skin.width := h2
        _ = skin.width * skin.height := Nat.mul_comm _ _
    rw [if_neg (by omega)]
    simp

/-- Witness for the amended C2 at a concrete opaque and a concrete
transparent pixel. -/
theorem c2_amended_hit_test_witness :
    GhostWindow.should_handle_click
      (mkHitWindow (Skin.mk 2 1 [255, 0])
        (WindowConfig.mk false true 10) 0 0 2 1) = true ∧
    GhostWindow.should_handle_click
      (mkHitWindow (Skin.mk 2 1 [255, 0])
        (WindowConfig.mk false true 10) 1 0 2 1) = false := by
  have h1 := (c2_amended_hit_test (Skin.mk 2 1 [255, 0])
    (WindowConfig.mk false true 10) 0 0 2 1 rfl rfl (by norm_num) (by norm_num)
    rfl).2
  have h2 := (c2_amended_hit_test (Skin.mk 2 1 [255, 0])
    (WindowConfig.mk false true 10) 1 0 2 1 rfl rfl (by norm_num) (by norm_num)
    rfl).2
  constructor
  · norm_num [List.getD] at h1
    exact h1
  · norm_num [List.getD] at h2
    exact h2

end Ghost
